import Mathlib

/-!
Verification development for the `data_processing_pipeline` blueprint.

The embedded program is
`src/cdk/examples/data_processing_pipeline/lib/sfn-ecs-blueprint-stack.ts`:
a CDK stack that creates a storage bucket, IAM roles, an ECS cluster and
task definition, a data-preparation Lambda function, a Step Functions
workflow (built by the collaborator module `sfn-ecs-blueprint-workflow.ts`,
which is not part of the given sources) and an EventBridge rule that starts
the workflow on a daily cron schedule.

The first part embeds the stack's resource wiring as Lean records built by
`buildStack`.  The second part models the scheduled orchestrator (the
two-stage batch workflow) whose step-by-step logic lives in the missing
collaborator module; those definitions are modelled from the specification,
as marked on each of them.
-/

namespace Pipeline

/-! ## Part 1: embedding of the CDK stack -/

/-- One entry of a policy-statement `conditions` block, e.g.
`{StringLike: {"iam:PassedToService": "ecs-tasks.amazonaws.com"}}`. -/
structure PolicyCondition where
  op : String
  key : String
  value : String
deriving DecidableEq

/-- An `iam.PolicyStatement` as constructed in the stack. -/
structure PolicyStatement where
  actions : List String
  allow : Bool
  resources : List String
  conditions : List PolicyCondition
deriving DecidableEq

/-- An `iam.Role`: its trust principal, the platform-assigned ARN, attached
managed policies, and the statements added with `addToPrincipalPolicy` (or by
the role-policy collaborator module). -/
structure IamRole where
  logicalId : String
  assumedBy : String
  arn : String
  managedPolicies : List String
  statements : List PolicyStatement
deriving DecidableEq

/-- The `s3.Bucket` created by the stack, with the properties set at
construction. -/
structure Bucket where
  name : String
  blockAllPublicAccess : Bool
  s3ManagedEncryption : Bool
  enforceSSL : Bool
  versioned : Bool
  retainOnDelete : Bool
deriving DecidableEq

/-- The `lambda.Function` created by the stack. -/
structure LambdaFunction where
  runtime : String
  handler : String
  environment : List (String × String)
  roleId : String
deriving DecidableEq

/-- The state machine returned by `createDataProcessorStateMachine`, recorded
together with the arguments the stack passes at the call site. -/
structure StateMachineRef where
  arn : String
  clusterName : String
  prepFunctionHandler : String
  inputBucketArg : String
deriving DecidableEq

/-- A six-field cron schedule as produced by `events.Schedule.cron`. -/
structure CronSchedule where
  minute : String
  hour : String
  day : String
  month : String
  weekDay : String
  year : String
deriving DecidableEq

/-- A rule target (`targets.SfnStateMachine`): the target state machine's
ARN, the role used to start it, and the optional static input (none
configured in the stack). -/
structure RuleTarget where
  targetArn : String
  roleId : String
  input : Option String
deriving DecidableEq

/-- An `events.Rule` with its schedule and targets. -/
structure EventRule where
  schedule : CronSchedule
  targets : List RuleTarget
deriving DecidableEq

/-- The identifiers the platform assigns at deployment time (bucket name,
role ARNs, state-machine ARN); the stack only wires them by reference. -/
structure AwsNaming where
  bucketName : String
  ecsTaskExecutionRoleArn : String
  ecsTaskRoleArn : String
  stepFunctionExecutionRoleArn : String
  lambdaExecutionRoleArn : String
  eventbridgeExecutionRoleArn : String
  stateMachineArn : String
deriving DecidableEq

/-- Modelled from the spec: the role-policy collaborator module
`sfn-ecs-blueprint-roles.ts` (functions `addStepFunctionRolePolicies`,
`addEcsTaskExecutionRolePolicies`, `addEcsTaskRolePolicies` and
`addLambdaExecutionRolePolicies`) is not part of the given sources; the spec
treats permission issuance as an out-of-scope collaborator, so each of those
calls contributes an opaque list of additional statements to its role. -/
structure ExtraPolicies where
  stepFunctionStmts : List PolicyStatement
  ecsTaskExecutionStmts : List PolicyStatement
  ecsTaskStmts : List PolicyStatement
  lambdaStmts : List PolicyStatement

/-- The option bag accepted by `events.Schedule.cron`. -/
structure CronOptions where
  minute : Option String
  hour : Option String
  day : Option String
  month : Option String
  weekDay : Option String
  year : Option String

/-- `events.Schedule.cron`: unset fields default to the wildcard, except
`weekDay` which defaults to `?`. -/
def scheduleCron (o : CronOptions) : CronSchedule :=
  { minute := o.minute.getD "*"
    hour := o.hour.getD "*"
    day := o.day.getD "*"
    month := o.month.getD "*"
    weekDay := o.weekDay.getD "?"
    year := o.year.getD "*" }

/-- The inline `iam:PassRole` statement the stack attaches to the Step
Functions execution role (resources: the two ECS roles; condition:
passed to `ecs-tasks.amazonaws.com`). -/
def passRoleStatement (nm : AwsNaming) : PolicyStatement :=
  { actions := ["iam:PassRole"]
    allow := true
    resources := [nm.ecsTaskExecutionRoleArn, nm.ecsTaskRoleArn]
    conditions := [{ op := "StringLike", key := "iam:PassedToService",
                     value := "ecs-tasks.amazonaws.com" }] }

/-- The single statement the stack attaches to the EventBridge scheduler
execution role: `states:StartExecution` on the workflow's ARN. -/
def startExecutionStatement (nm : AwsNaming) : PolicyStatement :=
  { actions := ["states:StartExecution"]
    allow := true
    resources := [nm.stateMachineArn]
    conditions := [] }

/-- All resources the stack constructor wires together. -/
structure StackModel where
  buckets : List Bucket
  bucket : Bucket
  ecsTaskExecutionRole : IamRole
  ecsTaskRole : IamRole
  stepFunctionExecutionRole : IamRole
  lambdaExecutionRole : IamRole
  dataPreparationFunction : LambdaFunction
  dataProcessorWorkflow : StateMachineRef
  eventbridgeExecutionRole : IamRole
  rule : EventRule

/-- The constructor of `SfnEcsBlueprintStack`, as a function of the
platform-assigned names and of the opaque statement lists contributed by the
role-policy collaborator module. -/
def buildStack (nm : AwsNaming) (ex : ExtraPolicies) : StackModel :=
  let bucket : Bucket :=
    { name := nm.bucketName, blockAllPublicAccess := true,
      s3ManagedEncryption := true, enforceSSL := true, versioned := true,
      retainOnDelete := true }
  let ecsTaskExecutionRole : IamRole :=
    { logicalId := "DataProcessorEcsTaskExecutionRole",
      assumedBy := "ecs-tasks.amazonaws.com",
      arn := nm.ecsTaskExecutionRoleArn, managedPolicies := [],
      statements := ex.ecsTaskExecutionStmts }
  let ecsTaskRole : IamRole :=
    { logicalId := "DataProcessorEcsTaskRole",
      assumedBy := "ecs-tasks.amazonaws.com",
      arn := nm.ecsTaskRoleArn, managedPolicies := [],
      statements := ex.ecsTaskStmts }
  let stepFunctionExecutionRole : IamRole :=
    { logicalId := "DataProcessorStepFunctionExecutionRole",
      assumedBy := "states.amazonaws.com",
      arn := nm.stepFunctionExecutionRoleArn, managedPolicies := [],
      statements := passRoleStatement nm :: ex.stepFunctionStmts }
  let lambdaExecutionRole : IamRole :=
    { logicalId := "DataProcessorLambdaExecutionRole",
      assumedBy := "lambda.amazonaws.com",
      arn := nm.lambdaExecutionRoleArn,
      managedPolicies := ["service-role/AWSLambdaVPCAccessExecutionRole",
                          "service-role/AWSLambdaBasicExecutionRole"],
      statements := ex.lambdaStmts }
  let dataPreparationFunction : LambdaFunction :=
    { runtime := "python3.10", handler := "prepareData.lambda_handler",
      environment := [("input_bucket", bucket.name)],
      roleId := "DataProcessorLambdaExecutionRole" }
  let dataProcessorWorkflow : StateMachineRef :=
    { arn := nm.stateMachineArn, clusterName := "DataProcessorCluster",
      prepFunctionHandler := dataPreparationFunction.handler,
      inputBucketArg := bucket.name }
  let eventbridgeExecutionRole : IamRole :=
    { logicalId := "DataProcessorEventBridgeSchedulerExecutionRole",
      assumedBy := "scheduler.amazonaws.com",
      arn := nm.eventbridgeExecutionRoleArn, managedPolicies := [],
      statements := [startExecutionStatement nm] }
  let rule : EventRule :=
    { schedule := scheduleCron
        { minute := some "0", hour := some "22", day := none,
          month := none, weekDay := none, year := none }
      targets := [{ targetArn := nm.stateMachineArn,
                    roleId := "DataProcessorEventBridgeSchedulerExecutionRole",
                    input := none }] }
  { buckets := [bucket], bucket := bucket,
    ecsTaskExecutionRole := ecsTaskExecutionRole, ecsTaskRole := ecsTaskRole,
    stepFunctionExecutionRole := stepFunctionExecutionRole,
    lambdaExecutionRole := lambdaExecutionRole,
    dataPreparationFunction := dataPreparationFunction,
    dataProcessorWorkflow := dataProcessorWorkflow,
    eventbridgeExecutionRole := eventbridgeExecutionRole, rule := rule }

/-- Numeric value of a decimal digit character. -/
def charDigit (c : Char) : Option Nat :=
  if c.isDigit then some (c.toNat - '0'.toNat) else none

/-- Decimal value of a cron field, when the field is a plain number. -/
def parseCronNat (s : String) : Option Nat :=
  if s.data.isEmpty then none
  else s.data.foldl (fun acc c =>
    match acc, charDigit c with
    | some n, some d => some (n * 10 + d)
    | _, _ => none) (some 0)

/-- Whether one cron field accepts the numeric value `v`: a wildcard accepts
everything, otherwise the field must denote exactly `v`. -/
def cronFieldMatches (f : String) (v : Nat) : Bool :=
  f == "*" || f == "?" || parseCronNat f == some v

/-- Whether the schedule fires at a given minute/hour of a day. -/
def CronSchedule.matchesTimeOfDay (c : CronSchedule) (minute hour : Nat) : Bool :=
  cronFieldMatches c.minute minute && cronFieldMatches c.hour hour

/-- Whether the schedule places no constraint on the date, i.e. it recurs on
every day. -/
def CronSchedule.unconstrainedDate (c : CronSchedule) : Bool :=
  c.day == "*" && c.month == "*" && (c.weekDay == "?" || c.weekDay == "*") &&
    c.year == "*"

/-- An access request evaluated against a policy statement: the action, the
resource, and the value of the `iam:PassedToService` context key. -/
structure AccessRequest where
  action : String
  resource : String
  passedToService : String

/-- Evaluation of one condition entry against a request. -/
def conditionHolds (ctx : AccessRequest) (c : PolicyCondition) : Bool :=
  if c.key == "iam:PassedToService" then c.value == ctx.passedToService
  else false

/-- Whether a statement allows a request: allow effect, action listed,
resource listed, and every condition satisfied. -/
def PolicyStatement.allows (st : PolicyStatement) (ctx : AccessRequest) : Bool :=
  st.allow && st.actions.contains ctx.action &&
    st.resources.contains ctx.resource && st.conditions.all (conditionHolds ctx)

/-! ## Part 2: the scheduled orchestrator

The step-by-step workflow logic lives in the collaborator module
`sfn-ecs-blueprint-workflow.ts` (`createDataProcessorStateMachine`), which is
not part of the given sources; the definitions below are therefore modelled
from the specification's description of the orchestrator (§4.4, §5, §7). -/

/-- Modelled from the spec: the terminal status of a WorkflowRun
(`Succeeded`, `Failed`, `PartialFailure`). -/
inductive Terminal where
  | succeeded
  | failed
  | partialFailure
deriving DecidableEq

/-- Modelled from the spec: the orchestrator's stage
(`Pending → Preparing → {Fanning-Out/Aggregating} → terminal`); fan-out and
aggregation are interleaved (outcomes are recorded as they arrive), so both
are represented by the single stage `running`. -/
inductive Phase where
  | idle
  | preparing
  | running
  | done : Terminal → Phase
deriving DecidableEq

/-- Modelled from the spec: the orchestrator's static configuration — the
concurrency cap on in-flight Processing Stage instances and the per-item
retry bound. -/
structure Config where
  maxConcurrency : Nat
  retryLimit : Nat

/-- Modelled from the spec: the observable state of one WorkflowRun.
`manifest` is `some n` once the Preparation Stage has returned a manifest of
`n` WorkDescriptors (identified by their index `i < n`); `pending` and
`inFlight` hold `(item, attemptsSoFar)` pairs; `outcomes` holds the recorded
`ExecutionOutcome`s as `(item, success?)` pairs; `dispatched` counts every
Processing Stage instance ever launched. -/
structure OrchState where
  phase : Phase
  manifest : Option Nat
  prepFatal : Bool
  pending : List (Nat × Nat)
  inFlight : List (Nat × Nat)
  outcomes : List (Nat × Bool)
  dispatched : Nat
deriving DecidableEq

/-- The state of a WorkflowRun at creation. -/
def initState : OrchState :=
  { phase := .idle, manifest := none, prepFatal := false, pending := [],
    inFlight := [], outcomes := [], dispatched := 0 }

/-- Number of success outcomes recorded so far. -/
def successCount (outs : List (Nat × Bool)) : Nat :=
  (outs.filter (fun p => p.2)).length

/-- Modelled from the spec: the aggregation decision — all successes give
`Succeeded`, zero successes give `Failed`, a mix gives `PartialFailure`. -/
def decideTerminal (outs : List (Nat × Bool)) : Terminal :=
  if successCount outs = outs.length then .succeeded
  else if successCount outs = 0 then .failed
  else .partialFailure

/-- Modelled from the spec: the orchestrator's small-step transition
relation.  The scheduler is nondeterministic: any in-flight item may complete
next, with success, with a transient failure (retried while attempts remain)
or with a terminal failure once the retry policy is exhausted; dispatch is
guarded by the concurrency cap; an empty manifest goes straight to
`Succeeded`; a fatal Preparation failure aborts the run as `Failed`. -/
inductive Step (cfg : Config) : OrchState → OrchState → Prop where
  | start (s : OrchState) :
      s.phase = .idle →
      Step cfg s { s with phase := .preparing }
  | prepEmpty (s : OrchState) :
      s.phase = .preparing →
      Step cfg s { s with phase := .done .succeeded, manifest := some 0 }
  | prepNonEmpty (s : OrchState) (n : Nat) :
      s.phase = .preparing → 0 < n →
      Step cfg s { s with phase := .running, manifest := some n,
                          pending := (List.range n).map (fun i => (i, 0)) }
  | prepFail (s : OrchState) :
      s.phase = .preparing →
      Step cfg s { s with phase := .done .failed, prepFatal := true }
  | dispatch (s : OrchState) (i a : Nat) (rest : List (Nat × Nat)) :
      s.phase = .running → s.pending = (i, a) :: rest →
      s.inFlight.length < cfg.maxConcurrency →
      Step cfg s { s with pending := rest, inFlight := (i, a) :: s.inFlight,
                          dispatched := s.dispatched + 1 }
  | completeSuccess (s : OrchState) (i a : Nat) (l1 l2 : List (Nat × Nat)) :
      s.phase = .running → s.inFlight = l1 ++ (i, a) :: l2 →
      Step cfg s { s with inFlight := l1 ++ l2,
                          outcomes := (i, true) :: s.outcomes }
  | retryTransient (s : OrchState) (i a : Nat) (l1 l2 : List (Nat × Nat)) :
      s.phase = .running → s.inFlight = l1 ++ (i, a) :: l2 →
      a < cfg.retryLimit →
      Step cfg s { s with inFlight := l1 ++ l2,
                          pending := (i, a + 1) :: s.pending }
  | completeFailure (s : OrchState) (i a : Nat) (l1 l2 : List (Nat × Nat)) :
      s.phase = .running → s.inFlight = l1 ++ (i, a) :: l2 →
      cfg.retryLimit ≤ a →
      Step cfg s { s with inFlight := l1 ++ l2,
                          outcomes := (i, false) :: s.outcomes }
  | aggregate (s : OrchState) :
      s.phase = .running → s.pending = [] → s.inFlight = [] →
      Step cfg s { s with phase := .done (decideTerminal s.outcomes) }

/-- States of a WorkflowRun reachable from creation. -/
inductive Reachable (cfg : Config) : OrchState → Prop where
  | init : Reachable cfg initState
  | step {s t : OrchState} : Reachable cfg s → Step cfg s t → Reachable cfg t

/-- The item indices currently present anywhere in the run: awaiting
dispatch, in flight, or already recorded. -/
def OrchState.itemIds (s : OrchState) : List Nat :=
  s.pending.map Prod.fst ++ s.inFlight.map Prod.fst ++ s.outcomes.map Prod.fst

/-- The inductive invariant of the orchestrator. -/
structure Inv (cfg : Config) (s : OrchState) : Prop where
  early : s.phase = .idle ∨ s.phase = .preparing →
    s.pending = [] ∧ s.inFlight = [] ∧ s.outcomes = [] ∧ s.dispatched = 0 ∧
      s.manifest = none ∧ s.prepFatal = false
  bound : s.inFlight.length ≤ cfg.maxConcurrency
  running : s.phase = .running →
    ∃ n, s.manifest = some n ∧ 0 < n ∧ s.itemIds.Perm (List.range n)
  fatal : s.prepFatal = true →
    s.phase = .done .failed ∧ s.outcomes = [] ∧ s.dispatched = 0 ∧
      s.manifest = none
  emptyMan : s.manifest = some 0 →
    s.phase = .done .succeeded ∧ s.outcomes = [] ∧ s.dispatched = 0
  term : ∀ t n, s.phase = .done t → s.manifest = some n → 0 < n →
    (s.outcomes.map Prod.fst).Perm (List.range n) ∧
      t = decideTerminal s.outcomes

/-! ## Part 3: the trigger / schedule adapter

The EventBridge rule in the stack starts the workflow on every firing (the
scheduler role is granted exactly `states:StartExecution` for this); the
overlap policy for a firing that arrives while a run is still active lives
in the workflow module that is not part of the given sources. -/

/-- Modelled from the spec: the trigger adapter's view of the system — how
many WorkflowRuns are currently active and how many were ever started. -/
structure TriggerState where
  activeRuns : Nat
  startedTotal : Nat
deriving DecidableEq

/-- Modelled from the spec: the trigger adapter under the reject-and-skip
overlap policy of §4.1 (the policy itself is in the workflow module missing
from the sources).  A firing with no active run starts exactly one new
WorkflowRun; a firing that arrives while a run is active is logged and
dropped; a run may finish at any time. -/
inductive TriggerStep : TriggerState → TriggerState → Prop where
  | accept (s : TriggerState) :
      s.activeRuns = 0 →
      TriggerStep s { activeRuns := s.activeRuns + 1,
                      startedTotal := s.startedTotal + 1 }
  | skip (s : TriggerState) :
      0 < s.activeRuns →
      TriggerStep s s
  | finish (s : TriggerState) :
      0 < s.activeRuns →
      TriggerStep s { activeRuns := s.activeRuns - 1,
                      startedTotal := s.startedTotal }

/-- Trigger states reachable from the quiescent initial state. -/
inductive TriggerReachable : TriggerState → Prop where
  | init : TriggerReachable { activeRuns := 0, startedTotal := 0 }
  | step {s t : TriggerState} :
      TriggerReachable s → TriggerStep s t → TriggerReachable t

/-! ## Part 4: concrete runs used as witnesses -/

/-- A sample configuration: one concurrent slot, no retries. -/
def exCfg : Config := { maxConcurrency := 1, retryLimit := 0 }

/-- A completed mixed run over a two-item manifest: item `0` succeeded,
item `1` failed terminally. -/
def exMixedFinal : OrchState :=
  { phase := .done .partialFailure, manifest := some 2, prepFatal := false,
    pending := [], inFlight := [], outcomes := [(1, false), (0, true)],
    dispatched := 2 }

/-- A run whose Preparation Stage returned an empty manifest. -/
def exEmptyFinal : OrchState :=
  { phase := .done .succeeded, manifest := some 0, prepFatal := false,
    pending := [], inFlight := [], outcomes := [], dispatched := 0 }

/-- A run whose Preparation Stage failed fatally. -/
def exFatalFinal : OrchState :=
  { phase := .done .failed, manifest := none, prepFatal := true,
    pending := [], inFlight := [], outcomes := [], dispatched := 0 }

/-! ## Theorems -/

theorem inv_init (cfg : Config) : Inv cfg initState := by
  constructor
  · intro _; exact ⟨rfl, rfl, rfl, rfl, rfl, rfl⟩
  · exact Nat.zero_le _
  · intro h; exact Phase.noConfusion h
  · intro h; exact Bool.noConfusion h
  · intro h; exact Option.noConfusion h
  · intro t n h; exact Phase.noConfusion h

theorem inv_step {cfg : Config} {s t : OrchState} (hs : Inv cfg s)
    (hst : Step cfg s t) : Inv cfg t := by
  obtain ⟨he, hb, hr, hf, hem, ht⟩ := hs
  cases hst with
  | start hph =>
      obtain ⟨hp, hif, ho, hd, hm, hpf⟩ := he (Or.inl hph)
      constructor
      · intro _; exact ⟨hp, hif, ho, hd, hm, hpf⟩
      · exact hb
      · intro h; exact Phase.noConfusion h
      · intro h; exact Bool.noConfusion (hpf.symm.trans h)
      · intro h; exact Option.noConfusion (hm.symm.trans h)
      · intro t' n h; exact Phase.noConfusion h
  | prepEmpty hph =>
      obtain ⟨hp, hif, ho, hd, hm, hpf⟩ := he (Or.inr hph)
      constructor
      · intro h; rcases h with h | h <;> exact Phase.noConfusion h
      · exact hb
      · intro h; exact Phase.noConfusion h
      · intro h; exact Bool.noConfusion (hpf.symm.trans h)
      · intro _; exact ⟨rfl, ho, hd⟩
      · intro t' n h hmn hn
        have h0 : (0 : Nat) = n := Option.some.inj hmn
        omega
  | prepNonEmpty n hph hn =>
      obtain ⟨hp, hif, ho, hd, hm, hpf⟩ := he (Or.inr hph)
      constructor
      · intro h; rcases h with h | h <;> exact Phase.noConfusion h
      · exact hb
      · intro _
        refine ⟨n, rfl, hn, ?_⟩
        simp [OrchState.itemIds, hif, ho, List.map_map, Function.comp_def]
      · intro h; exact Bool.noConfusion (hpf.symm.trans h)
      · intro h
        have h0 : n = 0 := Option.some.inj h
        omega
      · intro t' n' h; exact Phase.noConfusion h
  | prepFail hph =>
      obtain ⟨hp, hif, ho, hd, hm, hpf⟩ := he (Or.inr hph)
      constructor
      · intro h; rcases h with h | h <;> exact Phase.noConfusion h
      · exact hb
      · intro h; exact Phase.noConfusion h
      · intro _; exact ⟨rfl, ho, hd, hm⟩
      · intro h; exact Option.noConfusion (hm.symm.trans h)
      · intro t' n h hmn; exact Option.noConfusion (hm.symm.trans hmn)
  | dispatch i a rest hph hpend hlt =>
      constructor
      · intro h; rcases h with h | h <;>
          exact Phase.noConfusion (hph.symm.trans h)
      · exact hlt
      · intro _
        obtain ⟨n, hm, hn, hperm⟩ := hr hph
        refine ⟨n, hm, hn, ?_⟩
        refine List.Perm.trans (List.perm_iff_count.mpr fun x => ?_) hperm
        simp only [OrchState.itemIds, hpend]
        simp [List.count_append, List.count_cons]
        omega
      · intro h; exact Phase.noConfusion (hph.symm.trans (hf h).1)
      · intro h; exact Phase.noConfusion (hph.symm.trans (hem h).1)
      · intro t' n h; exact Phase.noConfusion (hph.symm.trans h)
  | completeSuccess i a l1 l2 hph hif =>
      constructor
      · intro h; rcases h with h | h <;>
          exact Phase.noConfusion (hph.symm.trans h)
      · have hlen := hb
        rw [hif] at hlen
        simp [List.length_append] at hlen ⊢
        omega
      · intro _
        obtain ⟨n, hm, hn, hperm⟩ := hr hph
        refine ⟨n, hm, hn, ?_⟩
        refine List.Perm.trans (List.perm_iff_count.mpr fun x => ?_) hperm
        simp only [OrchState.itemIds, hif]
        simp [List.count_append, List.count_cons]
        omega
      · intro h; exact Phase.noConfusion (hph.symm.trans (hf h).1)
      · intro h; exact Phase.noConfusion (hph.symm.trans (hem h).1)
      · intro t' n h; exact Phase.noConfusion (hph.symm.trans h)
  | retryTransient i a l1 l2 hph hif ha =>
      constructor
      · intro h; rcases h with h | h <;>
          exact Phase.noConfusion (hph.symm.trans h)
      · have hlen := hb
        rw [hif] at hlen
        simp [List.length_append] at hlen ⊢
        omega
      · intro _
        obtain ⟨n, hm, hn, hperm⟩ := hr hph
        refine ⟨n, hm, hn, ?_⟩
        refine List.Perm.trans (List.perm_iff_count.mpr fun x => ?_) hperm
        simp only [OrchState.itemIds, hif]
        simp [List.count_append, List.count_cons]
        omega
      · intro h; exact Phase.noConfusion (hph.symm.trans (hf h).1)
      · intro h; exact Phase.noConfusion (hph.symm.trans (hem h).1)
      · intro t' n h; exact Phase.noConfusion (hph.symm.trans h)
  | completeFailure i a l1 l2 hph hif ha =>
      constructor
      · intro h; rcases h with h | h <;>
          exact Phase.noConfusion (hph.symm.trans h)
      · have hlen := hb
        rw [hif] at hlen
        simp [List.length_append] at hlen ⊢
        omega
      · intro _
        obtain ⟨n, hm, hn, hperm⟩ := hr hph
        refine ⟨n, hm, hn, ?_⟩
        refine List.Perm.trans (List.perm_iff_count.mpr fun x => ?_) hperm
        simp only [OrchState.itemIds, hif]
        simp [List.count_append, List.count_cons]
        omega
      · intro h; exact Phase.noConfusion (hph.symm.trans (hf h).1)
      · intro h; exact Phase.noConfusion (hph.symm.trans (hem h).1)
      · intro t' n h; exact Phase.noConfusion (hph.symm.trans h)
  | aggregate hph hpend hinf =>
      constructor
      · intro h; rcases h with h | h <;> exact Phase.noConfusion h
      · exact hb
      · intro h; exact Phase.noConfusion h
      · intro h; exact Phase.noConfusion (hph.symm.trans (hf h).1)
      · intro h; exact Phase.noConfusion (hph.symm.trans (hem h).1)
      · intro t' n h hmn hn
        have h2 : Phase.done (decideTerminal s.outcomes) = Phase.done t' := h
        injection h2 with h2
        obtain ⟨n', hm', hn', hperm⟩ := hr hph
        have hnn : n' = n := Option.some.inj (hm'.symm.trans hmn)
        subst hnn
        refine ⟨?_, h2.symm⟩
        simpa [OrchState.itemIds, hpend, hinf] using hperm

theorem inv_reachable {cfg : Config} {s : OrchState} (h : Reachable cfg s) :
    Inv cfg s := by
  induction h with
  | init => exact inv_init cfg
  | step _ hst ih => exact inv_step ih hst

theorem trigger_active_le_one {s : TriggerState} (h : TriggerReachable s) :
    s.activeRuns ≤ 1 := by
  induction h with
  | init => exact Nat.zero_le 1
  | step _ hst ih =>
      cases hst with
      | accept h0 => simp [h0]
      | skip h1 => exact ih
      | finish h1 => simp; omega

theorem exMixed_reachable : Reachable exCfg exMixedFinal := by
  have h0 : Reachable exCfg initState := Reachable.init
  have h1 : Reachable exCfg
      { phase := .preparing, manifest := none, prepFatal := false,
        pending := [], inFlight := [], outcomes := [], dispatched := 0 } :=
    Reachable.step h0 (Step.start _ rfl)
  have h2 : Reachable exCfg
      { phase := .running, manifest := some 2, prepFatal := false,
        pending := [(0, 0), (1, 0)], inFlight := [], outcomes := [],
        dispatched := 0 } :=
    Reachable.step h1 (Step.prepNonEmpty _ 2 rfl (by decide))
  have h3 : Reachable exCfg
      { phase := .running, manifest := some 2, prepFatal := false,
        pending := [(1, 0)], inFlight := [(0, 0)], outcomes := [],
        dispatched := 1 } :=
    Reachable.step h2 (Step.dispatch _ 0 0 [(1, 0)] rfl rfl (by decide))
  have h4 : Reachable exCfg
      { phase := .running, manifest := some 2, prepFatal := false,
        pending := [(1, 0)], inFlight := [], outcomes := [(0, true)],
        dispatched := 1 } :=
    Reachable.step h3 (Step.completeSuccess _ 0 0 [] [] rfl rfl)
  have h5 : Reachable exCfg
      { phase := .running, manifest := some 2, prepFatal := false,
        pending := [], inFlight := [(1, 0)], outcomes := [(0, true)],
        dispatched := 2 } :=
    Reachable.step h4 (Step.dispatch _ 1 0 [] rfl rfl (by decide))
  have h6 : Reachable exCfg
      { phase := .running, manifest := some 2, prepFatal := false,
        pending := [], inFlight := [], outcomes := [(1, false), (0, true)],
        dispatched := 2 } :=
    Reachable.step h5 (Step.completeFailure _ 1 0 [] [] rfl rfl (by decide))
  exact Reachable.step h6 (Step.aggregate _ rfl rfl rfl)

theorem exEmpty_reachable : Reachable exCfg exEmptyFinal := by
  have h0 : Reachable exCfg initState := Reachable.init
  have h1 : Reachable exCfg
      { phase := .preparing, manifest := none, prepFatal := false,
        pending := [], inFlight := [], outcomes := [], dispatched := 0 } :=
    Reachable.step h0 (Step.start _ rfl)
  exact Reachable.step h1 (Step.prepEmpty _ rfl)

theorem exFatal_reachable : Reachable exCfg exFatalFinal := by
  have h0 : Reachable exCfg initState := Reachable.init
  have h1 : Reachable exCfg
      { phase := .preparing, manifest := none, prepFatal := false,
        pending := [], inFlight := [], outcomes := [], dispatched := 0 } :=
    Reachable.step h0 (Step.start _ rfl)
  exact Reachable.step h1 (Step.prepFail _ rfl)

/-- C1: for every completed run over a non-empty manifest of `n`
WorkDescriptors of which `k` succeed, the run's terminal state is
`PartialFailure` when `0 < k < n`, `Succeeded` when `k = n`, and `Failed`
when `k = 0`; item-level failures alone never make the run `Failed` while
any item succeeded. -/
theorem run_terminal_state_matches_success_count (cfg : Config)
    (s : OrchState) (t : Terminal) (n k : Nat) (h : Reachable cfg s)
    (hdone : s.phase = .done t) (hman : s.manifest = some n) (hn : 0 < n)
    (hk : k = successCount s.outcomes) :
    (0 < k ∧ k < n → t = .partialFailure) ∧ (k = n → t = .succeeded) ∧
      (k = 0 → t = .failed) ∧ (0 < k → t ≠ .failed) := by
  obtain ⟨hperm, hdec⟩ := (inv_reachable h).term t n hdone hman hn
  have hlen : s.outcomes.length = n := by
    have := hperm.length_eq
    simpa using this
  subst hk
  refine ⟨?_, ?_, ?_, ?_⟩
  · rintro ⟨hk1, hk2⟩
    rw [hdec]
    unfold decideTerminal
    rw [if_neg (by omega), if_neg (by omega)]
  · intro hke
    rw [hdec]
    unfold decideTerminal
    rw [if_pos (by omega)]
  · intro hk0
    rw [hdec]
    unfold decideTerminal
    rw [if_neg (by omega), if_pos (by omega)]
  · intro hk1
    rw [hdec]
    unfold decideTerminal
    split_ifs with h1 h2
    · decide
    · omega
    · decide

theorem run_terminal_state_matches_success_count_witness :
    (0 < 1 ∧ 1 < 2 → Terminal.partialFailure = .partialFailure) ∧
      (1 = 2 → Terminal.partialFailure = .succeeded) ∧
      ((1 : Nat) = 0 → Terminal.partialFailure = .failed) ∧
      (0 < 1 → Terminal.partialFailure ≠ .failed) :=
  run_terminal_state_matches_success_count exCfg exMixedFinal .partialFailure
    2 1 exMixed_reachable rfl rfl (by decide) (by decide)

/-- C2: for every WorkDescriptor `i` of a run's manifest, exactly one
ExecutionOutcome is recorded for `i` by the time the run is terminal,
regardless of retries or completion order; the run is terminal only after
every WorkDescriptor has a recorded outcome. -/
theorem outcome_recorded_exactly_once (cfg : Config) (s : OrchState)
    (t : Terminal) (n i : Nat) (h : Reachable cfg s)
    (hdone : s.phase = .done t) (hman : s.manifest = some n) (hi : i < n) :
    (s.outcomes.map Prod.fst).count i = 1 := by
  have hn : 0 < n := by omega
  obtain ⟨hperm, -⟩ := (inv_reachable h).term t n hdone hman hn
  rw [List.Perm.count_eq hperm]
  exact List.count_eq_one_of_mem (List.nodup_range n) (List.mem_range.mpr hi)

theorem outcome_recorded_exactly_once_witness :
    (exMixedFinal.outcomes.map Prod.fst).count 0 = 1 :=
  outcome_recorded_exactly_once exCfg exMixedFinal .partialFailure 2 0
    exMixed_reachable rfl rfl (by decide)

/-- C3: a run whose Preparation Stage returns an empty manifest terminates
as `Succeeded`, with zero Processing Stage instances dispatched (and no
outcome recorded). -/
theorem empty_manifest_succeeds_without_dispatch (cfg : Config)
    (s : OrchState) (h : Reachable cfg s) (hman : s.manifest = some 0) :
    s.phase = .done .succeeded ∧ s.dispatched = 0 ∧ s.outcomes = [] := by
  obtain ⟨h1, h2, h3⟩ := (inv_reachable h).emptyMan hman
  exact ⟨h1, h3, h2⟩

theorem empty_manifest_succeeds_without_dispatch_witness :
    exEmptyFinal.phase = .done .succeeded ∧ exEmptyFinal.dispatched = 0 ∧
      exEmptyFinal.outcomes = [] :=
  empty_manifest_succeeds_without_dispatch exCfg exEmptyFinal
    exEmpty_reachable rfl

/-- C4: a run whose Preparation Stage fails with a fatal error terminates as
`Failed`, with zero Processing Stage instances ever created and zero
ExecutionOutcomes recorded. -/
theorem fatal_preparation_fails_run (cfg : Config) (s : OrchState)
    (h : Reachable cfg s) (hft : s.prepFatal = true) :
    s.phase = .done .failed ∧ s.dispatched = 0 ∧ s.outcomes = [] := by
  obtain ⟨h1, h2, h3, -⟩ := (inv_reachable h).fatal hft
  exact ⟨h1, h3, h2⟩

theorem fatal_preparation_fails_run_witness :
    exFatalFinal.phase = .done .failed ∧ exFatalFinal.dispatched = 0 ∧
      exFatalFinal.outcomes = [] :=
  fatal_preparation_fails_run exCfg exFatalFinal exFatal_reachable rfl

/-- C5: at every reachable point of every run, the number of simultaneously
in-flight Processing Stage instances never exceeds the configured
concurrency limit. -/
theorem inflight_never_exceeds_limit (cfg : Config) (s : OrchState)
    (h : Reachable cfg s) :
    s.inFlight.length ≤ cfg.maxConcurrency :=
  (inv_reachable h).bound

theorem inflight_never_exceeds_limit_witness :
    exMixedFinal.inFlight.length ≤ exCfg.maxConcurrency :=
  inflight_never_exceeds_limit exCfg exMixedFinal exMixed_reachable

/-- C6: a trigger firing that arrives while a previous WorkflowRun is still
active starts no second run (it is skipped), and in no reachable state do
two runs overlap. -/
theorem no_overlapping_runs (s : TriggerState) (h : TriggerReachable s) :
    s.activeRuns ≤ 1 ∧
      ∀ u : TriggerState, TriggerStep s u → 0 < s.activeRuns →
        u.activeRuns ≤ s.activeRuns ∧ u.startedTotal = s.startedTotal := by
  refine ⟨trigger_active_le_one h, fun u hst hpos => ?_⟩
  cases hst with
  | accept h0 => exact absurd hpos (by omega)
  | skip h1 => exact ⟨le_refl _, rfl⟩
  | finish h1 => exact ⟨Nat.sub_le _ _, rfl⟩

theorem no_overlapping_runs_witness :
    (1 : Nat) ≤ 1 ∧
      ∀ u : TriggerState,
        TriggerStep { activeRuns := 1, startedTotal := 1 } u →
        0 < 1 → u.activeRuns ≤ 1 ∧ u.startedTotal = 1 :=
  no_overlapping_runs { activeRuns := 1, startedTotal := 1 }
    (TriggerReachable.step TriggerReachable.init (TriggerStep.accept _ rfl))

/-- C7: the rule's schedule fires exactly at minute 0, hour 22, of every
day, and the rule's single target is the workflow with no input payload. -/
theorem trigger_daily_at_22_no_payload (nm : AwsNaming) (ex : ExtraPolicies) :
    (∀ minute hour : Nat,
      (buildStack nm ex).rule.schedule.matchesTimeOfDay minute hour = true ↔
        minute = 0 ∧ hour = 22) ∧
    (buildStack nm ex).rule.schedule.unconstrainedDate = true ∧
    (buildStack nm ex).rule.targets.map RuleTarget.input = [none] ∧
    (buildStack nm ex).rule.targets.map RuleTarget.targetArn =
      [(buildStack nm ex).dataProcessorWorkflow.arn] := by
  refine ⟨fun minute hour => ?_, rfl, rfl, rfl⟩
  have h0 : ∀ v : Nat, cronFieldMatches "0" v = (0 == v) := fun _ => rfl
  have h22 : ∀ v : Nat, cronFieldMatches "22" v = (22 == v) := fun _ => rfl
  have hs : (buildStack nm ex).rule.schedule =
      { minute := "0", hour := "22", day := "*", month := "*",
        weekDay := "?", year := "*" } := rfl
  rw [hs]
  simp [CronSchedule.matchesTimeOfDay, h0, h22]
  omega

/-- C8: the single bucket the stack creates is the one whose name is placed
in the preparation function's environment as `input_bucket` and the one
whose name is passed to the workflow factory. -/
theorem stages_share_one_bucket (nm : AwsNaming) (ex : ExtraPolicies) :
    (buildStack nm ex).buckets = [(buildStack nm ex).bucket] ∧
    (buildStack nm ex).dataPreparationFunction.environment.lookup
        "input_bucket" = some (buildStack nm ex).bucket.name ∧
    (buildStack nm ex).dataProcessorWorkflow.inputBucketArg =
      (buildStack nm ex).bucket.name := by
  refine ⟨rfl, ?_, rfl⟩
  simp [buildStack, List.lookup]

/-- C9: the scheduler execution role receives exactly one statement —
`states:StartExecution` on the workflow's ARN — and nothing else (no
managed policy, no other statement). -/
theorem scheduler_role_exactly_start_execution (nm : AwsNaming)
    (ex : ExtraPolicies) :
    (buildStack nm ex).eventbridgeExecutionRole.statements =
      [startExecutionStatement nm] ∧
    (buildStack nm ex).eventbridgeExecutionRole.managedPolicies = [] ∧
    ∀ ctx : AccessRequest,
      (startExecutionStatement nm).allows ctx = true ↔
        ctx.action = "states:StartExecution" ∧
          ctx.resource = (buildStack nm ex).dataProcessorWorkflow.arn := by
  refine ⟨rfl, rfl, fun ctx => ?_⟩
  simp [startExecutionStatement, PolicyStatement.allows, buildStack,
    List.contains]

/-- C10: the inline `iam:PassRole` statement the stack attaches to the
state-machine execution role permits passing only the two ECS roles created
by this stack, and only to the `ecs-tasks.amazonaws.com` service. -/
theorem passrole_limited_to_stack_ecs_roles (nm : AwsNaming)
    (ex : ExtraPolicies) :
    (buildStack nm ex).stepFunctionExecutionRole.statements =
      passRoleStatement nm :: ex.stepFunctionStmts ∧
    ∀ ctx : AccessRequest,
      (passRoleStatement nm).allows ctx = true ↔
        ctx.action = "iam:PassRole" ∧
          (ctx.resource = (buildStack nm ex).ecsTaskExecutionRole.arn ∨
            ctx.resource = (buildStack nm ex).ecsTaskRole.arn) ∧
          ctx.passedToService = "ecs-tasks.amazonaws.com" := by
  refine ⟨rfl, fun ctx => ?_⟩
  simp [passRoleStatement, PolicyStatement.allows, conditionHolds,
    buildStack, List.contains]
  constructor
  · rintro ⟨⟨ha, hr⟩, hsvc⟩
    exact ⟨ha, hr, hsvc.symm⟩
  · rintro ⟨ha, hr, hsvc⟩
    exact ⟨⟨ha, hr⟩, hsvc.symm⟩

end Pipeline
